import Mathlib

/-!
Verification of the lc0 training-data core (canonical position encoder,
training-record codec and stream reader, self-play orchestrator and
statistics reporting) against its specification.

Sources embedded:
  - src/trainingdata/trainingdata.cc : DriftCorrect, CompareTransposing,
    ChooseTransform, TransformForPosition, EncodePositionForNN,
    SelfPlayLoop::SendTournament
  - src/trainingdata/reader.cc       : TrainingDataReader::ReadChunk
  - trainingdata.h (V6TrainingData)  : record layout and size assertion
  - src/selfplay/tournament.cc       : SelfPlayTournament control flow

Machine 64-bit words are modelled as Nat values below 2^64; arithmetic
that can wrap in the C++ code is taken explicitly modulo 2^64.  The float
arithmetic of DriftCorrect is modelled over the exact rationals.
-/

namespace Lczero

/-! ## Bitboard primitives

The bit-shuffling helpers live in utils/bitboard code that is not part of
the provided sources; they are modelled from the spec.  A 64-bit mask has
one bit per square, bit index 8*rank + file. -/

/-- Build the image of a 64-bit mask under a permutation of bit indices. -/
def permuteBits (f : Nat → Nat) (v : Nat) : Nat :=
  (List.range 64).foldl (fun acc i => if v.testBit i then acc ||| (1 <<< f i) else acc) 0

/-- Modelled from the spec: bit0 of a transform is "reverse-bits-in-byte"
(mirror the files, square (r, f) goes to (r, 7-f)); the implementation in
utils/bitboard is not among the provided sources. -/
def ReverseBitsInBytes (v : Nat) : Nat :=
  permuteBits (fun i => 8 * (i / 8) + (7 - i % 8)) v

/-- Modelled from the spec: bit1 of a transform is "reverse-byte-order"
(mirror the ranks, square (r, f) goes to (7-r, f)); the implementation in
utils/bitboard is not among the provided sources. -/
def ReverseBytesInBytes (v : Nat) : Nat :=
  permuteBits (fun i => 8 * (7 - i / 8) + i % 8) v

/-- Modelled from the spec: bit2 of a transform is the transpose.  The king
region masks 0xE0C08000 and 0x10204080 in ChooseTransform show the fixed
diagonal is the a8-h1 anti-diagonal, so square (r, f) goes to (7-f, 7-r);
the implementation in utils/bitboard is not among the provided sources. -/
def TransposeBitsInBytes (v : Nat) : Nat :=
  permuteBits (fun i => 8 * (7 - i % 8) + (7 - i / 8)) v

/-- All 64 bits set; Plane::SetAll() fills the plane with this mask. -/
def kAllOnes : Nat := 2 ^ 64 - 1

/-- Modelled from the spec: index of the lowest set bit of a 64-bit mask
(utils helper not among the provided sources). -/
def GetLowestBit (v : Nat) : Nat :=
  ((List.range 64).find? (fun i => v.testBit i)).getD 0

/-- 64-bit wrapping subtraction, as on C++ uint64_t. -/
def sub64 (a b : Nat) : Nat := (2 ^ 64 + a - b) % 2 ^ 64

/-- 64-bit wrapping addition, as on C++ uint64_t. -/
def add64 (a b : Nat) : Nat := (a + b) % 2 ^ 64

/-- 64-bit truncating left shift, as on C++ uint64_t. -/
def shl64 (a n : Nat) : Nat := (a <<< n) % 2 ^ 64

/-! ## Board model

ChessBoard internals live in the rules engine, outside the provided
sources; the structure below models exactly the accessors the encoder
uses (ours, theirs, per-piece-type masks, castlings, flipped flag and
en-passant mask). -/

/-- Castling rights plus rook files, mirroring ChessBoard::Castlings as
used by the encoder (we/they kingside/queenside flags, FRC rook files). -/
structure Castlings where
  we_can_00_ : Bool
  we_can_000_ : Bool
  they_can_00_ : Bool
  they_can_000_ : Bool
  queenside_rook_ : Nat
  kingside_rook_ : Nat
  deriving DecidableEq, Repr

namespace Castlings

def we_can_00 (c : Castlings) : Bool := c.we_can_00_
def we_can_000 (c : Castlings) : Bool := c.we_can_000_
def they_can_00 (c : Castlings) : Bool := c.they_can_00_
def they_can_000 (c : Castlings) : Bool := c.they_can_000_
def queenside_rook (c : Castlings) : Nat := c.queenside_rook_
def kingside_rook (c : Castlings) : Nat := c.kingside_rook_

/-- ChessBoard::Castlings::no_legal_castle(): no castling right remains. -/
def no_legal_castle (c : Castlings) : Bool :=
  !(c.we_can_00_ || c.we_can_000_ || c.they_can_00_ || c.they_can_000_)

/-- Modelled from the spec: Castlings::as_int(), an injective integer
encoding of the rights and rook files, used only for (in)equality tests
by the canonical encoder's stop-early rule. -/
def as_int (c : Castlings) : Nat :=
  (cond c.we_can_00_ 1 0) + 2 * (cond c.we_can_000_ 1 0) +
  4 * (cond c.they_can_00_ 1 0) + 8 * (cond c.they_can_000_ 1 0) +
  16 * c.queenside_rook_ + 256 * c.kingside_rook_

/-- No castling rights at all (the default for test boards). -/
def none : Castlings := ⟨false, false, false, false, 0, 7⟩

/-- All four castling rights with classical rook files. -/
def all : Castlings := ⟨true, true, true, true, 0, 7⟩

end Castlings

/-- The board state as seen through the accessors the encoder calls.
Piece masks are 64-bit occupancy bitboards. -/
structure ChessBoard where
  ours_ : Nat
  theirs_ : Nat
  pawns_ : Nat
  knights_ : Nat
  bishops_ : Nat
  rooks_ : Nat
  queens_ : Nat
  kings_ : Nat
  castlings_ : Castlings
  flipped_ : Bool
  en_passant_ : Nat
  deriving DecidableEq, Repr

namespace ChessBoard

def ours (b : ChessBoard) : Nat := b.ours_
def theirs (b : ChessBoard) : Nat := b.theirs_
def pawns (b : ChessBoard) : Nat := b.pawns_
def knights (b : ChessBoard) : Nat := b.knights_
def bishops (b : ChessBoard) : Nat := b.bishops_
def rooks (b : ChessBoard) : Nat := b.rooks_
def queens (b : ChessBoard) : Nat := b.queens_
def kings (b : ChessBoard) : Nat := b.kings_
def castlings (b : ChessBoard) : Castlings := b.castlings_
def flipped (b : ChessBoard) : Bool := b.flipped_
def en_passant (b : ChessBoard) : Nat := b.en_passant_

/-- BoardSquare(ChessBoard::A1).as_board(). -/
def A1mask : Nat := 1

/-- BoardSquare(ChessBoard::A8).as_board(). -/
def A8mask : Nat := 1 <<< 56

/-- Modelled from the spec: ChessBoard::kStartposBoard, the canonical
starting position from white's perspective (rules engine data not among
the provided sources). -/
def kStartposBoard : ChessBoard :=
  { ours_ := 0xFFFF
    theirs_ := 0xFFFF000000000000
    pawns_ := 0x00FF00000000FF00
    knights_ := 0x4200000000000042
    bishops_ := 0x2400000000000024
    rooks_ := 0x8100000000000081
    queens_ := 0x0800000000000008
    kings_ := 0x1000000000000010
    castlings_ := Castlings.all
    flipped_ := false
    en_passant_ := 0 }

/-- An empty board, the default value of ChessBoard. -/
def empty : ChessBoard :=
  ⟨0, 0, 0, 0, 0, 0, 0, 0, Castlings.none, false, 0⟩

end ChessBoard

/-! ## Transform selection (trainingdata.cc lines 131-225) -/

/-- trainingdata.cc CompareTransposing: apply the pending bit0/bit1
adjustments of `initial_transform` to `value`, then compare against the
additionally transposed value; -1 if the untransposed candidate is
smaller, 1 if larger, 0 on a tie. -/
def CompareTransposing (value : Nat) (initial_transform : Nat) : Int :=
  let value := if initial_transform &&& 1 ≠ 0 then ReverseBitsInBytes value else value
  let value := if initial_transform &&& 2 ≠ 0 then ReverseBytesInBytes value else value
  let alternative := TransposeBitsInBytes value
  if value < alternative then -1
  else if value > alternative then 1
  else 0

/-- The diagonal tie-break of ChooseTransform: compare, in priority order,
combined occupancy, own occupancy, kings, queens, rooks, knights and
bishops; the first mask whose candidates differ decides whether bit2 is
set.  Mirrors the early-return chain of trainingdata.cc lines 182-220. -/
def transposeTieBreak (board : ChessBoard) (transform : Nat) : Nat :=
  let o1 := CompareTransposing (board.ours ||| board.theirs) transform
  if o1 = -1 then transform else if o1 = 1 then transform ||| 4 else
  let o2 := CompareTransposing board.ours transform
  if o2 = -1 then transform else if o2 = 1 then transform ||| 4 else
  let o3 := CompareTransposing board.kings transform
  if o3 = -1 then transform else if o3 = 1 then transform ||| 4 else
  let o4 := CompareTransposing board.queens transform
  if o4 = -1 then transform else if o4 = 1 then transform ||| 4 else
  let o5 := CompareTransposing board.rooks transform
  if o5 = -1 then transform else if o5 = 1 then transform ||| 4 else
  let o6 := CompareTransposing board.knights transform
  if o6 = -1 then transform else if o6 = 1 then transform ||| 4 else
  let o7 := CompareTransposing board.bishops transform
  if o7 = -1 then transform else if o7 = 1 then transform ||| 4 else
  transform

/-- trainingdata.cc ChooseTransform: pick the canonical symmetry for a
board.  Returns 0 when any castling right remains; otherwise normalizes
the side-to-move king into the bottom-right quadrant via bit0/bit1
(stopping after bit0 when pawns exist) and decides the transpose bit by
king triangle or, on the anti-diagonal, by the mask tie-break. -/
def ChooseTransform (board : ChessBoard) : Nat :=
  if !board.castlings.no_legal_castle then 0
  else
    let our_king0 := board.kings &&& board.ours
    let transform1 := if our_king0 &&& 0x0F0F0F0F0F0F0F0F ≠ 0 then 1 else 0
    let our_king1 :=
      if our_king0 &&& 0x0F0F0F0F0F0F0F0F ≠ 0 then ReverseBitsInBytes our_king0 else our_king0
    if board.pawns ≠ 0 then transform1
    else
      let transform2 :=
        if our_king1 &&& 0xFFFFFFFF00000000 ≠ 0 then transform1 ||| 2 else transform1
      let our_king2 :=
        if our_king1 &&& 0xFFFFFFFF00000000 ≠ 0 then ReverseBytesInBytes our_king1 else our_king1
      if our_king2 &&& 0xE0C08000 ≠ 0 then transform2 ||| 4
      else if our_king2 &&& 0x10204080 ≠ 0 then transposeTieBreak board transform2
      else transform2

/-- The side-to-move king mask after the bit0 (horizontal mirror)
adjustment step of ChooseTransform. -/
def kingBit0Adjusted (board : ChessBoard) : Nat :=
  let our_king0 := board.kings &&& board.ours
  if our_king0 &&& 0x0F0F0F0F0F0F0F0F ≠ 0 then ReverseBitsInBytes our_king0 else our_king0

/-- The side-to-move king mask after both the bit0 and bit1 adjustment
steps of ChooseTransform (the normalized king, meaningful for pawnless
boards). -/
def kingNormalized (board : ChessBoard) : Nat :=
  let k1 := kingBit0Adjusted board
  if k1 &&& 0xFFFFFFFF00000000 ≠ 0 then ReverseBytesInBytes k1 else k1

/-- Application of a 3-bit transform to one plane mask, as in the final
loop of EncodePositionForNN (bit0 reverse-bits, then bit1 reverse-bytes,
then bit2 transpose). -/
def applyTransform (transform : Nat) (v : Nat) : Nat :=
  let v := if transform &&& 1 ≠ 0 then ReverseBitsInBytes v else v
  let v := if transform &&& 2 ≠ 0 then ReverseBytesInBytes v else v
  if transform &&& 4 ≠ 0 then TransposeBitsInBytes v else v

/-! ## Positions, history and input formats -/

/-- One entry of the position history, as seen through the accessors the
encoder calls: the board from the mover's perspective (GetBoard), the
same position from the opponent's perspective (GetThemBoard), the
repetition count and the no-capture-no-pawn ply counter.  The relation
between the two board views is maintained by the rules engine, which is
outside the provided sources. -/
structure Position where
  board_ : ChessBoard
  them_board_ : ChessBoard
  repetitions_ : Nat
  no_capture_no_pawn_ply_ : Nat
  deriving DecidableEq, Repr

namespace Position

def GetBoard (p : Position) : ChessBoard := p.board_
def GetThemBoard (p : Position) : ChessBoard := p.them_board_
def GetRepetitions (p : Position) : Nat := p.repetitions_
def GetNoCaptureNoPawnPly (p : Position) : Nat := p.no_capture_no_pawn_ply_

/-- Default position value (empty boards), used only to totalize list
accesses the C++ caller guarantees are in range. -/
def default : Position := ⟨ChessBoard.empty, ChessBoard.empty, 0, 0⟩

end Position

/-- PositionHistory as consumed by the encoder: the ordered list of
positions from the game start to the current position. -/
structure PositionHistory where
  positions : List Position
  deriving DecidableEq, Repr

namespace PositionHistory

def GetLength (h : PositionHistory) : Nat := h.positions.length

def GetPositionAt (h : PositionHistory) (idx : Nat) : Position :=
  h.positions.getD idx Position.default

def Last (h : PositionHistory) : Position :=
  h.positions.getLastD Position.default

end PositionHistory

/-- Modelled from the spec: the pblczero::NetworkFormat::InputFormat tag
(protobuf definition not among the provided sources).  The three
supported variants are named; every other tag value is `unknown`. -/
inductive InputFormat where
  | classical112
  | castling112
  | canonical112
  | unknown (tag : Nat)
  deriving DecidableEq, Repr

/-- The FillEmptyHistory policy for history slots before the first
recorded position: never fill, fill only for non-startpos (FEN) games,
or always fill. -/
inductive FillEmptyHistory where
  | NO
  | FEN_ONLY
  | ALWAYS
  deriving DecidableEq, Repr

/-! ## Position encoder (trainingdata.cc lines 227-390) -/

/-- kPlanesPerBoard * kMoveHistory = 13 * 8. -/
def kAuxPlaneBase : Nat := 13 * 8

/-- The en-passant undo of the encoder: when an underflowed history board
still carries an en-passant target, move the capturable pawn back to its
pre-move square by 64-bit wrapping addition on the pawn plane. -/
def epPawnUndo (board : ChessBoard) (result : List Nat) (base : Nat) : List Nat :=
  let idx := GetLowestBit board.en_passant
  if idx < 8 then
    result.set (base + 0)
      (add64 (result.getD (base + 0) 0) (shl64 (sub64 0x0000000000000100 0x0000000001000000) idx))
  else
    result.set (base + 6)
      (add64 (result.getD (base + 6) 0) (shl64 (sub64 0x0001000000000000 0x0000000100000000) (idx - 56)))

/-- The body of the backward history walk of EncodePositionForNN: each
iteration selects the (possibly perspective-flipped) board for one
history slot, applies the stop-early and fill-policy break rules, writes
the 13 per-board planes, and recurses with the flip state toggled when
a real predecessor exists.  `fuel` counts the remaining iterations of
the bounded for-loop. -/
def encodeHistoryLoop (stop_early : Bool) (fill_empty_history : FillEmptyHistory)
    (history : PositionHistory) (castlings0 : Nat) :
    Nat → Nat → Int → Bool → List Nat → List Nat
  | 0, _, _, _, result => result
  | fuel + 1, i, history_idx, flip, result =>
    let position := history.GetPositionAt (if history_idx < 0 then 0 else history_idx).toNat
    let board := if flip then position.GetThemBoard else position.GetBoard
    if stop_early = true ∧ board.castlings.as_int ≠ castlings0 then result
    else if stop_early = true ∧ history_idx ≠ (history.GetLength : Int) - 1 ∧
        board.en_passant ≠ 0 then result
    else if history_idx < 0 ∧ fill_empty_history = FillEmptyHistory.NO then result
    else if history_idx < 0 ∧ fill_empty_history = FillEmptyHistory.FEN_ONLY ∧
        position.GetBoard = ChessBoard.kStartposBoard then result
    else
      let base := i * 13
      let result := result.set (base + 0) (board.ours &&& board.pawns)
      let result := result.set (base + 1) (board.ours &&& board.knights)
      let result := result.set (base + 2) (board.ours &&& board.bishops)
      let result := result.set (base + 3) (board.ours &&& board.rooks)
      let result := result.set (base + 4) (board.ours &&& board.queens)
      let result := result.set (base + 5) (board.ours &&& board.kings)
      let result := result.set (base + 6) (board.theirs &&& board.pawns)
      let result := result.set (base + 7) (board.theirs &&& board.knights)
      let result := result.set (base + 8) (board.theirs &&& board.bishops)
      let result := result.set (base + 9) (board.theirs &&& board.rooks)
      let result := result.set (base + 10) (board.theirs &&& board.queens)
      let result := result.set (base + 11) (board.theirs &&& board.kings)
      let result := if position.GetRepetitions ≥ 1 then result.set (base + 12) kAllOnes else result
      let result :=
        if history_idx < 0 ∧ board.en_passant ≠ 0 then epPawnUndo board result base else result
      let flip := if history_idx > 0 then !flip else flip
      if stop_early = true ∧ position.GetNoCaptureNoPawnPly = 0 then result
      else encodeHistoryLoop stop_early fill_empty_history history castlings0
        fuel (i + 1) (history_idx - 1) flip result

/-- The auxiliary-plane block of EncodePositionForNN (the switch on the
input format): castling planes for the legacy variant, rook-position
castling masks for the modern variants, and an UnsupportedFormat error
for any other tag. -/
def encodeAuxCastling (input_format : InputFormat) (board : ChessBoard)
    (result : List Nat) : Except String (List Nat) :=
  match input_format with
  | InputFormat.classical112 =>
    let result := if board.castlings.we_can_000 then result.set (kAuxPlaneBase + 0) kAllOnes else result
    let result := if board.castlings.we_can_00 then result.set (kAuxPlaneBase + 1) kAllOnes else result
    let result := if board.castlings.they_can_000 then result.set (kAuxPlaneBase + 2) kAllOnes else result
    let result := if board.castlings.they_can_00 then result.set (kAuxPlaneBase + 3) kAllOnes else result
    Except.ok result
  | InputFormat.castling112 | InputFormat.canonical112 =>
    let cast := board.castlings
    let result := result.set (kAuxPlaneBase + 0)
      (shl64 ((if cast.we_can_000 then ChessBoard.A1mask else 0) |||
              (if cast.they_can_000 then ChessBoard.A8mask else 0)) cast.queenside_rook)
    let result := result.set (kAuxPlaneBase + 1)
      (shl64 ((if cast.we_can_00 then ChessBoard.A1mask else 0) |||
              (if cast.they_can_00 then ChessBoard.A8mask else 0)) cast.kingside_rook)
    Except.ok result
  | InputFormat.unknown tag =>
    Except.error ("Unsupported input plane encoding " ++ toString tag)

/-- The final mask-transform loop of EncodePositionForNN: planes 0 up to
kAuxPlaneBase + 4 are rewritten under the selected transform, skipping
all-zero and all-one masks. -/
def applyTransformToPlanes (transform : Nat) (result : List Nat) : List Nat :=
  (List.range (kAuxPlaneBase + 5)).foldl
    (fun res i =>
      let v := res.getD i 0
      if v = 0 ∨ v = kAllOnes then res else res.set i (applyTransform transform v))
    result

/-- trainingdata.cc EncodePositionForNN: produce the 112 plane masks and
the transform actually applied, or an UnsupportedFormat error for an
unknown input-format tag.  The history walk runs the configured fill
policy and, for the canonicalization format, the stop-early rules. -/
def EncodePositionForNN (input_format : InputFormat) (history : PositionHistory)
    (history_planes : Nat) (fill_empty_history : FillEmptyHistory) :
    Except String (List Nat × Nat) :=
  let result0 : List Nat := List.replicate (kAuxPlaneBase + 8) 0
  let board := history.Last.GetBoard
  let we_are_black := board.flipped
  let transform :=
    if input_format = InputFormat.canonical112 then ChooseTransform board else 0
  let stop_early : Bool := input_format = InputFormat.canonical112
  match encodeAuxCastling input_format board result0 with
  | Except.error e => Except.error e
  | Except.ok result =>
  let result :=
    if input_format = InputFormat.canonical112 then
      result.set (kAuxPlaneBase + 4) board.en_passant
    else
      if we_are_black then result.set (kAuxPlaneBase + 4) kAllOnes else result
  let result := result.set (kAuxPlaneBase + 5)
    (if history.Last.GetNoCaptureNoPawnPly ≥ 1 then kAllOnes else 0)
  let result := result.set (kAuxPlaneBase + 7) kAllOnes
  let castlings0 := board.castlings.as_int
  let result := encodeHistoryLoop stop_early fill_empty_history history castlings0
    (min history_planes 8) 0 ((history.GetLength : Int) - 1) false result
  let result := if transform ≠ 0 then applyTransformToPlanes transform result else result
  Except.ok (result, transform)

/-- The plane list of an encoder result (empty on the error path). -/
def planesOf (e : Except String (List Nat × Nat)) : List Nat :=
  match e with
  | Except.ok (planes, _) => planes
  | Except.error _ => []

/-- The transform reported by an encoder result (0 on the error path). -/
def transformOf (e : Except String (List Nat × Nat)) : Nat :=
  match e with
  | Except.ok (_, transform) => transform
  | Except.error _ => 0

/-- Whether the input-format tag is one of the three variants the
encoder's format switch supports. -/
def isSupportedFormat : InputFormat → Bool
  | InputFormat.unknown _ => false
  | _ => true

/-! ## Drift correction (trainingdata.cc lines 33-76)

The C++ code works on float; it is modelled here over the exact
rationals.  The CERR logging on large drift does not change the computed
values and is dropped. -/

/-- trainingdata.cc DriftCorrect: clamp q to [-1,1] and d to [0,1], then
repair d (trusting q) when the implied win or loss probability is
negative, re-clamping d at 0 afterwards.  Returns the corrected (q, d). -/
def DriftCorrect (q d : ℚ) : ℚ × ℚ :=
  let q := if q > 1 then 1 else q
  let q := if q < -1 then -1 else q
  let d := if d > 1 then 1 else d
  let d := if d < 0 then 0 else d
  let w := (1 - d + q) / 2
  let l := w - q
  if w < 0 ∨ l < 0 then
    let drift := 2 * min w l
    let d := d + drift
    let d := if d < 0 then 0 else d
    (q, d)
  else (q, d)

/-! ## Training record layout (trainingdata.h struct V6TrainingData) -/

/-- The byte sizes of the packed V6TrainingData fields, in declaration
order: uint32_t version, uint32_t input_format, uint64_t planes[110],
float result_q, float result_d, uint32_t p1idx, uint32_t p2idx.  The
pack(push, 1) pragma removes all padding, so the struct size is the sum. -/
def v6FieldBytes : List Nat := [4, 4, 110 * 8, 4, 4, 4, 4]

/-- sizeof(V6TrainingData) under the packed layout. -/
def sizeofV6TrainingData : Nat := v6FieldBytes.sum

/-! ## Stream reader (reader.cc TrainingDataReader::ReadChunk) -/

/-- The observable outcome of one ReadChunk call: a full record was
decoded (returns true), a short or empty read (returns false), or the
CorruptStream exception. -/
inductive ReadChunkResult where
  | readRecord
  | endOfStream
  | corruptStream
  deriving DecidableEq, Repr

/-- reader.cc TrainingDataReader::ReadChunk, as a function of the byte
count gzread returned for this record (negative on a zlib error): throws
on a negative read and otherwise returns whether a full record's worth
of bytes arrived. -/
def ReadChunk (read_size : Int) : ReadChunkResult :=
  if read_size < 0 then ReadChunkResult.corruptStream
  else if read_size = (sizeofV6TrainingData : Int) then ReadChunkResult.readRecord
  else ReadChunkResult.endOfStream

/-! ## Self-play tournament control flow (tournament.cc)

The mutex-protected methods are modelled as atomic steps on the
tournament state; worker game play (PlayOneGame / Worker) is a no-op in
the source.  The only externally visible events are tournament_callback_
invocations. -/

/-- The tournament state touched by Stop/Abort/Wait/RunBlocking: the
abort flag, the joinable worker threads, the finished flag of
tournament_info_, and the kParallelism configuration constant. -/
structure TournamentState where
  abort : Bool
  threads : Nat
  finished : Bool
  parallelism : Nat
  deriving DecidableEq, Repr

/-- An invocation of tournament_callback_ with the finished flag the
callback observes. -/
inductive TournamentEvent where
  | tournamentCallback (finished : Bool)
  deriving DecidableEq, Repr

/-- SelfPlayTournament::Stop: set the abort flag. -/
def stopTournament (s : TournamentState) : TournamentState × List TournamentEvent :=
  ({ s with abort := true }, [])

/-- SelfPlayTournament::Abort: set the abort flag and abort in-flight
games (game play is a no-op in the source, so no further state). -/
def abortTournament (s : TournamentState) : TournamentState × List TournamentEvent :=
  ({ s with abort := true }, [])

/-- SelfPlayTournament::Worker (a bare return in the source). -/
def workerTournament (s : TournamentState) : TournamentState × List TournamentEvent :=
  (s, [])

/-- SelfPlayTournament::StartAsync: grow the thread roster to
kParallelism workers. -/
def startAsyncTournament (s : TournamentState) : TournamentState × List TournamentEvent :=
  ({ s with threads := max s.threads s.parallelism }, [])

/-- SelfPlayTournament::Wait: join and drop every worker thread, then,
unless the abort flag is set, mark the tournament finished and fire the
tournament callback. -/
def waitTournament (s : TournamentState) : TournamentState × List TournamentEvent :=
  let s := { s with threads := 0 }
  if s.abort = false then
    ({ s with finished := true }, [TournamentEvent.tournamentCallback true])
  else (s, [])

/-- SelfPlayTournament::RunBlocking: with parallelism 1 run the single
worker inline and report unless aborted; otherwise start the pool and
wait. -/
def runBlockingTournament (s : TournamentState) : TournamentState × List TournamentEvent :=
  if s.parallelism = 1 then
    let s := (workerTournament s).1
    if s.abort = false then
      ({ s with finished := true }, [TournamentEvent.tournamentCallback true])
    else (s, [])
  else
    let s := (startAsyncTournament s).1
    waitTournament s

/-- The tournament methods an external caller can invoke after
construction. -/
inductive TournamentOp where
  | stop
  | abort
  | startAsync
  | wait
  | runBlocking
  deriving DecidableEq, Repr

/-- Dispatch one method call on the tournament state. -/
def stepTournament (op : TournamentOp) (s : TournamentState) :
    TournamentState × List TournamentEvent :=
  match op with
  | TournamentOp.stop => stopTournament s
  | TournamentOp.abort => abortTournament s
  | TournamentOp.startAsync => startAsyncTournament s
  | TournamentOp.wait => waitTournament s
  | TournamentOp.runBlocking => runBlockingTournament s

/-- Run a sequence of method calls, collecting every callback event. -/
def runTournamentOps : List TournamentOp → TournamentState →
    TournamentState × List TournamentEvent
  | [], s => (s, [])
  | op :: ops, s =>
    let (s1, evs1) := stepTournament op s
    let (s2, evs2) := runTournamentOps ops s1
    (s2, evs1 ++ evs2)

/-! ## Tournament status report (trainingdata.cc SelfPlayLoop::SendTournament)

The float arithmetic is modelled over the exact rationals.  The Elo and
LOS values are transcendental (-400*log10(1/p-1) and
0.5+0.5*erf((w-l)/sqrt(2*(w+l)))); the report keeps, for each, the
option that the code computes it together with the rational data the
transcendental function is applied to, which captures exactly when each
metric is present in the output. -/

/-- TournamentInfo as consumed by SendTournament: results[outcome][color]
counters (outcome 0 = player1 win, 1 = draw, 2 = player1 loss), the
finished flag and the aggregate node/move counters. -/
structure TournamentInfo where
  results : Fin 3 → Fin 2 → Nat
  finished : Bool
  nodes_total_ : Nat
  move_count_ : Nat

/-- What SendTournament derives before formatting: the win percentage
(-1 sentinel when no games), whether the Win line is printed, the Elo
computation (some (1/p - 1), the argument of -400*log10) when enabled,
and the LOS computation (some (winp1 - losep1, 2*(winp1+losep1)), the
data of erf((w-l)/sqrt(2*(w+l)))) when enabled. -/
structure TournamentReport where
  winp1 : Nat
  losep1 : Nat
  draws : Nat
  percentage : ℚ
  winShown : Bool
  eloData : Option ℚ
  losData : Option (Int × Nat)
  finalShown : Bool
  deriving DecidableEq, Repr

/-- trainingdata.cc SelfPlayLoop::SendTournament: aggregate the per-color
counters, compute the win percentage only when any games exist, enable
Elo only for a percentage strictly between 0 and 1, enable LOS only when
any decisive game exists, and print the Win line only for a positive
percentage. -/
def SendTournament (info : TournamentInfo) : TournamentReport :=
  let winp1 := info.results 0 0 + info.results 0 1
  let losep1 := info.results 2 0 + info.results 2 1
  let draws := info.results 1 0 + info.results 1 1
  let percentage : ℚ := -1
  let percentage :=
    if winp1 + losep1 + draws > 0 then
      ((draws : ℚ) / 2 + winp1) / ((winp1 : ℚ) + losep1 + draws)
    else percentage
  let eloData : Option ℚ :=
    if percentage < 1 ∧ percentage > 0 then some (1 / percentage - 1) else Option.none
  let losData : Option (Int × Nat) :=
    if winp1 + losep1 > 0 then some ((winp1 : Int) - losep1, 2 * (winp1 + losep1))
    else Option.none
  { winp1 := winp1
    losep1 := losep1
    draws := draws
    percentage := percentage
    winShown := decide (percentage > 0)
    eloData := eloData
    losData := losData
    finalShown := info.finished }

/-! ## Tournament constructor color assignment (tournament.cc lines 146-164) -/

/-- The color-assignment step of the SelfPlayTournament constructor as a
function of the kTotalGames option and the stream of Random::Get()
.GetBool() draws: returns first_game_black_ and the number of random
draws consumed.  The member initializer first_game_black_ = false lives
in the header, which is not among the provided sources; it is modelled
from the constructor's own comment ("If playing just one game, the
player1 is white, otherwise randomize."). -/
def constructorFirstGameBlack (kTotalGames : Int) (randBools : List Bool) : Bool × Nat :=
  let first_game_black := false
  if kTotalGames ≠ 1 then (randBools.headD first_game_black, 1)
  else (first_game_black, 0)

/-! ## Concrete test fixtures -/

/-- A pawnless, castle-free board with the side-to-move king on d1 and
the opponent king on a8. -/
def kingsD1A8Board : ChessBoard :=
  { ours_ := 2 ^ 3, theirs_ := 2 ^ 56, pawns_ := 0, knights_ := 0, bishops_ := 0,
    rooks_ := 0, queens_ := 0, kings_ := 2 ^ 3 + 2 ^ 56,
    castlings_ := Castlings.none, flipped_ := false, en_passant_ := 0 }

/-- A pawnless, castle-free board with the side-to-move king on h1 and
the opponent king on a8, both on the a8-h1 anti-diagonal. -/
def kingsH1A8Board : ChessBoard :=
  { ours_ := 2 ^ 7, theirs_ := 2 ^ 56, pawns_ := 0, knights_ := 0, bishops_ := 0,
    rooks_ := 0, queens_ := 0, kings_ := 2 ^ 7 + 2 ^ 56,
    castlings_ := Castlings.none, flipped_ := false, en_passant_ := 0 }

/-- The game-start position: the canonical starting board with its
opponent-perspective view. -/
def startPosition : Position :=
  { board_ := ChessBoard.kStartposBoard
    them_board_ :=
      { ours_ := 0xFFFF, theirs_ := 0xFFFF000000000000,
        pawns_ := 0x00FF00000000FF00, knights_ := 0x4200000000000042,
        bishops_ := 0x2400000000000024, rooks_ := 0x8100000000000081,
        queens_ := 0x0800000000000008, kings_ := 0x1000000000000010,
        castlings_ := Castlings.all, flipped_ := true, en_passant_ := 0 }
    repetitions_ := 0
    no_capture_no_pawn_ply_ := 0 }

/-- A single-entry history whose only position is the game start. -/
def startposHistory : PositionHistory := ⟨[startPosition]⟩

/-- The starting board with both queens removed (a position reachable
only from a FEN game, not equal to kStartposBoard). -/
def noQueensBoard : ChessBoard :=
  { ours_ := 0xFFF7, theirs_ := 0xF7FF000000000000,
    pawns_ := 0x00FF00000000FF00, knights_ := 0x4200000000000042,
    bishops_ := 0x2400000000000024, rooks_ := 0x8100000000000081,
    queens_ := 0, kings_ := 0x1000000000000010,
    castlings_ := Castlings.all, flipped_ := false, en_passant_ := 0 }

/-- A single-entry history starting from the queenless board. -/
def noQueensHistory : PositionHistory :=
  ⟨[{ board_ := noQueensBoard
      them_board_ := { noQueensBoard with flipped_ := true }
      repetitions_ := 0
      no_capture_no_pawn_ply_ := 0 }]⟩

/-- Tournament counters with one game in every results cell. -/
def sampleTournamentInfo : TournamentInfo :=
  { results := fun _ _ => 1, finished := false, nodes_total_ := 0, move_count_ := 0 }

/-! ## Theorems -/

/-- C4: for every board position in which any legal castling right
remains, ChooseTransform returns 0. -/
theorem chooseTransform_eq_zero_of_castling (b : ChessBoard)
    (h : b.castlings.no_legal_castle = false) : ChooseTransform b = 0 := by
  simp [ChooseTransform, h]

/-- Witness for C4: the starting position retains all castling rights and
receives transform 0. -/
theorem chooseTransform_eq_zero_of_castling_witness :
    ChessBoard.kStartposBoard.castlings.no_legal_castle = false ∧
    ChooseTransform ChessBoard.kStartposBoard = 0 :=
  ⟨by decide, chooseTransform_eq_zero_of_castling ChessBoard.kStartposBoard (by decide)⟩

/-- C6: the packed V6TrainingData record (4-byte version, 4-byte
input-format tag, 110 8-byte plane words, 4-byte result_q, 4-byte
result_d, 4-byte p1idx, 4-byte p2idx) is exactly 888 + 16 = 904 bytes,
so the compile-time assertion sizeof(V6TrainingData) == 888+16 holds. -/
theorem v6TrainingData_size_ok :
    sizeofV6TrainingData = 888 + 16 ∧ sizeofV6TrainingData = 904 :=
  ⟨rfl, rfl⟩

/-- C10: with exactly one configured game the constructor never draws
from the random source and first_game_black_ stays false, so any two
runs assign the same colors (player1 is white). -/
theorem constructorFirstGameBlack_single_game (randBools randBools2 : List Bool) :
    constructorFirstGameBlack 1 randBools = (false, 0) ∧
    constructorFirstGameBlack 1 randBools = constructorFirstGameBlack 1 randBools2 := by
  simp [constructorFirstGameBlack]

/-- Counterexample to C2 as stated: a positive read of 100 bytes, shorter
than the 904-byte record, makes ReadChunk return false (end-of-stream)
rather than fail with CorruptStream. -/
theorem readChunk_short_read_counterexample :
    (0 : Int) < 100 ∧ (100 : Int) < (sizeofV6TrainingData : Int) ∧
    ReadChunk 100 = ReadChunkResult.endOfStream ∧
    ReadChunk 100 ≠ ReadChunkResult.corruptStream := by
  refine ⟨by norm_num, by norm_num [sizeofV6TrainingData, v6FieldBytes], rfl, by decide⟩

/-- C2 amended: ReadChunk fails with CorruptStream exactly when gzread
reports a negative count; it returns true exactly on a full record, and
any other non-negative (short or empty) read returns false, truncated
mid-record reads included. -/
theorem readChunk_outcomes (read_size : Int) :
    (ReadChunk read_size = ReadChunkResult.corruptStream ↔ read_size < 0) ∧
    (ReadChunk read_size = ReadChunkResult.readRecord ↔
      read_size = (sizeofV6TrainingData : Int)) ∧
    (ReadChunk read_size = ReadChunkResult.endOfStream ↔
      0 ≤ read_size ∧ read_size ≠ (sizeofV6TrainingData : Int)) := by
  have hs : (sizeofV6TrainingData : Int) = 904 := by
    norm_num [sizeofV6TrainingData, v6FieldBytes]
  unfold ReadChunk
  rw [hs]
  split_ifs with h1 h2
  · exact ⟨iff_of_true rfl h1, iff_of_false (by simp) (by omega),
      iff_of_false (by simp) (by omega)⟩
  · exact ⟨iff_of_false (by simp) (by omega), iff_of_true rfl h2,
      iff_of_false (by simp) (by omega)⟩
  · exact ⟨iff_of_false (by simp) h1, iff_of_false (by simp) h2,
      iff_of_true rfl ⟨by omega, h2⟩⟩

set_option linter.unnecessarySeqFocus false in
/-- Once the abort flag is set, a single tournament method call keeps it
set, leaves the finished flag untouched and fires no callback. -/
theorem stepTournament_of_abort (op : TournamentOp) (s : TournamentState)
    (h : s.abort = true) :
    (stepTournament op s).1.abort = true ∧
    (stepTournament op s).1.finished = s.finished ∧
    (stepTournament op s).2 = [] := by
  cases op <;>
    simp [stepTournament, stopTournament, abortTournament, startAsyncTournament,
      waitTournament, runBlockingTournament, workerTournament, h] <;>
    split_ifs <;> simp [h]

/-- Once the abort flag is set, no sequence of tournament method calls
changes the finished flag or fires any callback. -/
theorem runTournamentOps_of_abort (ops : List TournamentOp) (s : TournamentState)
    (h : s.abort = true) :
    (runTournamentOps ops s).1.finished = s.finished ∧
    (runTournamentOps ops s).2 = [] ∧
    (runTournamentOps ops s).1.abort = true := by
  induction ops generalizing s with
  | nil => exact ⟨rfl, rfl, h⟩
  | cons op ops ih =>
    obtain ⟨ha, hf, he⟩ := stepTournament_of_abort op s h
    obtain ⟨ihf, ihe, iha⟩ := ih (stepTournament op s).1 ha
    refine ⟨?_, ?_, ?_⟩ <;> simp [runTournamentOps, ihf, hf, he, ihe, iha]

/-- C7: Stop() sets the abort flag, and from then on no sequence of
tournament method calls (Wait, RunBlocking, Stop, Abort, StartAsync, in
any order) changes tournament_info_.finished or invokes the tournament
callback at all; in particular the Finished terminal state is never
reported after a stop request. -/
theorem tournament_no_finish_after_stop (s : TournamentState) (ops : List TournamentOp) :
    (stopTournament s).1.abort = true ∧
    (runTournamentOps ops (stopTournament s).1).1.finished = s.finished ∧
    (runTournamentOps ops (stopTournament s).1).2 = [] := by
  have h : (stopTournament s).1.abort = true := rfl
  obtain ⟨hf, he, _⟩ := runTournamentOps_of_abort ops (stopTournament s).1 h
  exact ⟨h, hf, he⟩

/-- C5: DriftCorrect clamps q to [-1,1] and d to [0,1] and leaves the
implied win and loss probabilities w = (1-d+q)/2 and l = w-q
non-negative, for every rational input; q = 1.02 is clamped to exactly
1, and for q = 0.9, d = 0.95 the draw probability is reduced (to 0.1)
so that the recomputed loss probability is non-negative. -/
theorem driftCorrect_postcondition (q d : ℚ) :
    -1 ≤ (DriftCorrect q d).1 ∧ (DriftCorrect q d).1 ≤ 1 ∧
    0 ≤ (DriftCorrect q d).2 ∧ (DriftCorrect q d).2 ≤ 1 ∧
    0 ≤ (1 - (DriftCorrect q d).2 + (DriftCorrect q d).1) / 2 ∧
    0 ≤ (1 - (DriftCorrect q d).2 + (DriftCorrect q d).1) / 2 - (DriftCorrect q d).1 ∧
    (DriftCorrect (102 / 100) (1 / 2)).1 = 1 ∧
    (DriftCorrect (9 / 10) (95 / 100)).2 = 1 / 10 ∧
    0 ≤ (1 - (DriftCorrect (9 / 10) (95 / 100)).2 + (DriftCorrect (9 / 10) (95 / 100)).1) / 2
      - (DriftCorrect (9 / 10) (95 / 100)).1 := by
  have hconc1 : DriftCorrect (102 / 100) (1 / 2) = (1, 0) := by
    norm_num [DriftCorrect]
  have hconc2 : DriftCorrect (9 / 10) (95 / 100) = (9 / 10, 1 / 10) := by
    norm_num [DriftCorrect, min_def]
  have hgen : -1 ≤ (DriftCorrect q d).1 ∧ (DriftCorrect q d).1 ≤ 1 ∧
      0 ≤ (DriftCorrect q d).2 ∧ (DriftCorrect q d).2 ≤ 1 ∧
      0 ≤ (1 - (DriftCorrect q d).2 + (DriftCorrect q d).1) / 2 ∧
      0 ≤ (1 - (DriftCorrect q d).2 + (DriftCorrect q d).1) / 2 - (DriftCorrect q d).1 := ?_
  · exact ⟨hgen.1, hgen.2.1, hgen.2.2.1, hgen.2.2.2.1, hgen.2.2.2.2.1, hgen.2.2.2.2.2,
      by rw [hconc1], by rw [hconc2], by rw [hconc2]; norm_num⟩
  unfold DriftCorrect
  dsimp only
  set Q1 := if q > 1 then (1 : ℚ) else q with hQ1
  set Q := if Q1 < -1 then (-1 : ℚ) else Q1 with hQ
  set D1 := if d > 1 then (1 : ℚ) else d with hD1
  set D := if D1 < 0 then (0 : ℚ) else D1 with hD
  have hq2 : Q ≤ 1 := by
    rw [hQ, hQ1]; split_ifs <;> linarith
  have hq1 : -1 ≤ Q := by
    rw [hQ]; split_ifs <;> linarith
  have hd1 : 0 ≤ D := by
    rw [hD]; split_ifs <;> linarith
  have hd2 : D ≤ 1 := by
    rw [hD, hD1]; split_ifs <;> linarith
  simp only [min_def]
  split_ifs with h1 h2 h3 h4
  · push_neg at h3
    refine ⟨by linarith, by linarith, by norm_num, by norm_num, ?_, ?_⟩ <;> dsimp only <;> linarith
  · rcases h1 with h1 | h1 <;>
      refine ⟨by linarith, by linarith, by linarith, by linarith, ?_, ?_⟩ <;> dsimp only <;> linarith
  · push_neg at h2
    refine ⟨by linarith, by linarith, by norm_num, by norm_num, ?_, ?_⟩ <;> dsimp only <;> linarith
  · push_neg at h2 h4
    rcases h1 with h1 | h1 <;>
      refine ⟨by linarith, by linarith, by linarith, by linarith, ?_, ?_⟩ <;> dsimp only <;> linarith
  · push_neg at h1
    exact ⟨by linarith, by linarith, by linarith, by linarith, by linarith, by linarith⟩

/-- C9: the tournament-status report computes the win percentage
(draws/2 + wins)/total only when any games exist (sentinel -1 and no
Win output otherwise), enables the Elo estimate exactly when the
percentage is strictly between 0 and 1, and enables the
likelihood-of-superiority exactly when wins + losses > 0. -/
theorem sendTournament_metric_conditions (info : TournamentInfo) :
    ((SendTournament info).winp1 = info.results 0 0 + info.results 0 1 ∧
     (SendTournament info).losep1 = info.results 2 0 + info.results 2 1 ∧
     (SendTournament info).draws = info.results 1 0 + info.results 1 1) ∧
    ((SendTournament info).winp1 + (SendTournament info).losep1 +
        (SendTournament info).draws = 0 →
      (SendTournament info).percentage = -1 ∧ (SendTournament info).winShown = false ∧
      (SendTournament info).eloData = Option.none) ∧
    (0 < (SendTournament info).winp1 + (SendTournament info).losep1 +
        (SendTournament info).draws →
      (SendTournament info).percentage =
        (((SendTournament info).draws : ℚ) / 2 + (SendTournament info).winp1) /
          (((SendTournament info).winp1 : ℚ) + (SendTournament info).losep1 +
            (SendTournament info).draws)) ∧
    ((SendTournament info).eloData.isSome = true ↔
      0 < (SendTournament info).percentage ∧ (SendTournament info).percentage < 1) ∧
    ((SendTournament info).losData.isSome = true ↔
      0 < (SendTournament info).winp1 + (SendTournament info).losep1) := by
  unfold SendTournament
  dsimp only
  split_ifs with h1 h2 h3 h4 h5 h6 <;>
    refine ⟨⟨rfl, rfl, rfl⟩, ?_, ?_, ?_, ?_⟩ <;> simp_all <;> try omega
  all_goals
    first
      | linarith
      | (intro hp; by_contra hc; push_neg at hc; linarith [h2 hc])

/-- Witness for C9: with one game in every cell (2 wins, 2 draws,
2 losses) the computed win percentage is (draws/2 + wins)/total. -/
theorem sendTournament_metric_conditions_witness :
    (SendTournament sampleTournamentInfo).percentage =
      (((SendTournament sampleTournamentInfo).draws : ℚ) / 2 +
        (SendTournament sampleTournamentInfo).winp1) /
        (((SendTournament sampleTournamentInfo).winp1 : ℚ) +
          (SendTournament sampleTournamentInfo).losep1 +
          (SendTournament sampleTournamentInfo).draws) :=
  (sendTournament_metric_conditions sampleTournamentInfo).2.2.1 (by decide)

/-- C8: EncodePositionForNN fails (with the UnsupportedFormat error) if
and only if the input-format tag is none of the three supported
variants; the format dispatch never throws for a supported tag, for any
history, depth and fill policy. -/
theorem encodePositionForNN_format_dispatch (input_format : InputFormat)
    (history : PositionHistory) (history_planes : Nat) (fill : FillEmptyHistory) :
    (EncodePositionForNN input_format history history_planes fill).isOk =
      isSupportedFormat input_format := by
  cases input_format <;> rfl

/-- Helper for C1: with the FEN_ONLY policy, when the first recorded
position is the canonical starting position, the history walk behaves
exactly like the never-fill (NO) policy: every underflow slot stops the
walk. -/
theorem encodeHistoryLoop_fenOnly_eq_no (stop_early : Bool) (history : PositionHistory)
    (castlings0 : Nat)
    (hstart : (history.GetPositionAt 0).GetBoard = ChessBoard.kStartposBoard) :
    ∀ (fuel i : Nat) (history_idx : Int) (flip : Bool) (result : List Nat),
      encodeHistoryLoop stop_early FillEmptyHistory.FEN_ONLY history castlings0
        fuel i history_idx flip result =
      encodeHistoryLoop stop_early FillEmptyHistory.NO history castlings0
        fuel i history_idx flip result := by
  intro fuel
  induction fuel with
  | zero => intro i history_idx flip result; rfl
  | succ n ih =>
    intro i history_idx flip result
    by_cases hid : history_idx < 0
    · simp [encodeHistoryLoop, hid, hstart]
    · simp [encodeHistoryLoop, hid, ih]

/-- Helper for C1: with the FEN_ONLY policy, when the first recorded
position is not the canonical starting position, the history walk
behaves exactly like the always-fill (ALWAYS) policy: every underflow
slot is synthesized from the first recorded position. -/
theorem encodeHistoryLoop_fenOnly_eq_always (stop_early : Bool) (history : PositionHistory)
    (castlings0 : Nat)
    (hstart : (history.GetPositionAt 0).GetBoard ≠ ChessBoard.kStartposBoard) :
    ∀ (fuel i : Nat) (history_idx : Int) (flip : Bool) (result : List Nat),
      encodeHistoryLoop stop_early FillEmptyHistory.FEN_ONLY history castlings0
        fuel i history_idx flip result =
      encodeHistoryLoop stop_early FillEmptyHistory.ALWAYS history castlings0
        fuel i history_idx flip result := by
  intro fuel
  induction fuel with
  | zero => intro i history_idx flip result; rfl
  | succ n ih =>
    intro i history_idx flip result
    by_cases hid : history_idx < 0
    · simp [encodeHistoryLoop, hid, hstart, ih]
    · simp [encodeHistoryLoop, hid, ih]

/-- C1 amended: under the FEN_ONLY fill policy the encoder synthesizes a
board for every missing history slot exactly when the first recorded
board does NOT coincide with the canonical starting position (the
encoder then behaves identically to the ALWAYS policy), and stops the
walk at the first missing slot when it does coincide (behaving
identically to the NO policy) -- the opposite polarity of the claim as
stated. -/
theorem fenOnly_fill_amended (input_format : InputFormat) (history : PositionHistory)
    (history_planes : Nat) :
    ((history.GetPositionAt 0).GetBoard = ChessBoard.kStartposBoard →
      EncodePositionForNN input_format history history_planes FillEmptyHistory.FEN_ONLY =
        EncodePositionForNN input_format history history_planes FillEmptyHistory.NO) ∧
    ((history.GetPositionAt 0).GetBoard ≠ ChessBoard.kStartposBoard →
      EncodePositionForNN input_format history history_planes FillEmptyHistory.FEN_ONLY =
        EncodePositionForNN input_format history history_planes FillEmptyHistory.ALWAYS) := by
  constructor
  · intro hstart
    unfold EncodePositionForNN
    cases haux : encodeAuxCastling input_format history.Last.GetBoard
        (List.replicate (kAuxPlaneBase + 8) 0) <;>
      simp [haux, encodeHistoryLoop_fenOnly_eq_no _ history _ hstart]
  · intro hstart
    unfold EncodePositionForNN
    cases haux : encodeAuxCastling input_format history.Last.GetBoard
        (List.replicate (kAuxPlaneBase + 8) 0) <;>
      simp [haux, encodeHistoryLoop_fenOnly_eq_always _ history _ hstart]

/-- Counterexample to C1 as stated: with FEN_ONLY and a single-position
history, when the recorded board IS the canonical starting position the
encoder leaves the underflowed second history slot empty (own-kings
plane 18 is 0, where a synthesized startpos board would put mask 16),
and when the recorded board is NOT the starting position (queens
removed) the encoder DOES synthesize the slot -- each the opposite of
the claimed polarity. -/
theorem fenOnly_fill_counterexample :
    (planesOf (EncodePositionForNN InputFormat.classical112 startposHistory 8
        FillEmptyHistory.FEN_ONLY)).getD 18 0 = 0 ∧
    ChessBoard.kStartposBoard.ours &&& ChessBoard.kStartposBoard.kings = 16 ∧
    startPosition.GetBoard = ChessBoard.kStartposBoard ∧
    (planesOf (EncodePositionForNN InputFormat.classical112 noQueensHistory 8
        FillEmptyHistory.FEN_ONLY)).getD 18 0 =
      noQueensBoard.ours &&& noQueensBoard.kings ∧
    noQueensBoard ≠ ChessBoard.kStartposBoard ∧
    noQueensBoard.ours &&& noQueensBoard.kings ≠ 0 := by
  refine ⟨?_, by decide, by decide, ?_, by decide, by decide⟩ <;> decide

/-- Witness for C1 amended: the startpos single-position history makes
FEN_ONLY coincide with the NO policy. -/
theorem fenOnly_fill_amended_witness :
    (startposHistory.GetPositionAt 0).GetBoard = ChessBoard.kStartposBoard ∧
    EncodePositionForNN InputFormat.classical112 startposHistory 8 FillEmptyHistory.FEN_ONLY =
      EncodePositionForNN InputFormat.classical112 startposHistory 8 FillEmptyHistory.NO :=
  ⟨by decide,
    (fenOnly_fill_amended InputFormat.classical112 startposHistory 8).1 (by decide)⟩


/-- Helper for C3: adding the transpose bit to a transform without it
post-composes the mask transformation with the transpose. -/
theorem applyTransform_or4 (t x : Nat) (h1 : (t ||| 4) &&& 1 = t &&& 1)
    (h2 : (t ||| 4) &&& 2 = t &&& 2) (h4 : t &&& 4 = 0) (h44 : (t ||| 4) &&& 4 ≠ 0) :
    applyTransform (t ||| 4) x = TransposeBitsInBytes (applyTransform t x) := by
  unfold applyTransform
  dsimp only
  rw [h1, h2]
  simp [h4, h44]

/-- Helper for C3: CompareTransposing only returns -1, 1 or 0. -/
theorem compareTransposing_trichotomy (x t : Nat) :
    CompareTransposing x t = -1 ∨ CompareTransposing x t = 1 ∨ CompareTransposing x t = 0 := by
  unfold CompareTransposing
  dsimp only
  split_ifs <;> simp

/-- Helper for C3: the meaning of the three CompareTransposing outcomes
for a transform without the transpose bit: -1 when the mask under the
partial transform is smaller than its transpose, 1 when larger, 0 on a
tie. -/
theorem compareTransposing_spec (x t : Nat) (h4 : t &&& 4 = 0) :
    (CompareTransposing x t = -1 →
      applyTransform t x < TransposeBitsInBytes (applyTransform t x)) ∧
    (CompareTransposing x t = 1 →
      TransposeBitsInBytes (applyTransform t x) < applyTransform t x) ∧
    (CompareTransposing x t = 0 →
      applyTransform t x = TransposeBitsInBytes (applyTransform t x)) := by
  unfold CompareTransposing applyTransform
  dsimp only
  simp only [h4]
  split_ifs with ha hb <;> refine ⟨?_, ?_, ?_⟩ <;> intro h <;>
    first | assumption | exact h.elim | omega

set_option maxHeartbeats 1000000 in
/-- Helper for C3: the residual tie-break cascade only ever returns the
incoming transform or the incoming transform with the transpose bit. -/
theorem tieBreakRest_mem (t t4 : Nat) (o2 o3 o4 o5 o6 o7 : Int) :
    (if o2 = -1 then t else if o2 = 1 then t4 else
     if o3 = -1 then t else if o3 = 1 then t4 else
     if o4 = -1 then t else if o4 = 1 then t4 else
     if o5 = -1 then t else if o5 = 1 then t4 else
     if o6 = -1 then t else if o6 = 1 then t4 else
     if o7 = -1 then t else if o7 = 1 then t4 else t) = t ∨
    (if o2 = -1 then t else if o2 = 1 then t4 else
     if o3 = -1 then t else if o3 = 1 then t4 else
     if o4 = -1 then t else if o4 = 1 then t4 else
     if o5 = -1 then t else if o5 = 1 then t4 else
     if o6 = -1 then t else if o6 = 1 then t4 else
     if o7 = -1 then t else if o7 = 1 then t4 else t) = t4 := by
  repeat' split
  all_goals first | exact Or.inl rfl | exact Or.inr rfl

/-- Helper for C3: the tie-break picks, between the partial transform
and the partial transform with transpose, the one whose combined
occupancy value is not larger (the occupancy mask is the first,
highest-priority comparison). -/
theorem transposeTieBreak_occ_le (b : ChessBoard) (t t4 : Nat) (ht4 : t ||| 4 = t4)
    (h1 : t4 &&& 1 = t &&& 1) (h2 : t4 &&& 2 = t &&& 2)
    (h4 : t &&& 4 = 0) (h44 : t4 &&& 4 ≠ 0)
    (hxor : t ^^^ 4 = t4) (hxor2 : t4 ^^^ 4 = t) :
    applyTransform (transposeTieBreak b t) (b.ours ||| b.theirs) ≤
      applyTransform (transposeTieBreak b t ^^^ 4) (b.ours ||| b.theirs) := by
  obtain ⟨hlt, hgt, heq⟩ := compareTransposing_spec (b.ours ||| b.theirs) t h4
  have hasym : applyTransform t4 (b.ours ||| b.theirs) =
      TransposeBitsInBytes (applyTransform t (b.ours ||| b.theirs)) := by
    rw [← ht4]
    exact applyTransform_or4 t (b.ours ||| b.theirs) (ht4 ▸ h1) (ht4 ▸ h2) h4 (ht4 ▸ h44)
  unfold transposeTieBreak
  dsimp only
  rw [ht4]
  rcases compareTransposing_trichotomy (b.ours ||| b.theirs) t with h | h | h <;> rw [h]
  · rw [if_pos rfl, hxor, hasym]
    exact le_of_lt (hlt h)
  · rw [if_neg (by decide), if_pos rfl, hxor2, hasym]
    exact le_of_lt (hgt h)
  · rw [if_neg (by decide), if_neg (by decide)]
    generalize CompareTransposing b.ours t = o2
    generalize CompareTransposing b.kings t = o3
    generalize CompareTransposing b.queens t = o4
    generalize CompareTransposing b.rooks t = o5
    generalize CompareTransposing b.knights t = o6
    generalize CompareTransposing b.bishops t = o7
    rcases tieBreakRest_mem t t4 o2 o3 o4 o5 o6 o7 with hm | hm <;> rw [hm]
    · rw [hxor, hasym]
      exact le_of_eq (heq h)
    · rw [hxor2, hasym]
      exact le_of_eq (heq h).symm

set_option maxHeartbeats 1000000 in
/-- C3 amended: for a pawnless board without castling rights whose
bit0/bit1-normalized king lies on the a8-h1 anti-diagonal of the
canonical quadrant (the tie-break case), the combined occupancy mask
under the transform chosen by ChooseTransform is lexicographically ≤
the occupancy mask under the same transform with the transpose bit
toggled.  The unrestricted per-mask claim against the untransformed
value is false (see the counterexample). -/
theorem chooseTransform_diag_occupancy_minimal (b : ChessBoard)
    (hc : b.castlings.no_legal_castle = true) (hp : b.pawns = 0)
    (h3 : kingNormalized b &&& 0xE0C08000 = 0)
    (h4 : kingNormalized b &&& 0x10204080 ≠ 0) :
    applyTransform (ChooseTransform b) (b.ours ||| b.theirs) ≤
      applyTransform (ChooseTransform b ^^^ 4) (b.ours ||| b.theirs) := by
  unfold ChooseTransform
  unfold kingNormalized kingBit0Adjusted at h3 h4
  dsimp only at h3 h4 ⊢
  rw [hc]
  rw [if_neg (by decide)]
  rw [hp]
  rw [if_neg (by decide)]
  split_ifs at h3 h4 ⊢
  · exact absurd h3 (by assumption)
  · exact transposeTieBreak_occ_le b (1 ||| 2) 7 (by decide) (by decide) (by decide)
      (by decide) (by decide) (by decide) (by decide)
  · exact absurd h3 (by assumption)
  · exact transposeTieBreak_occ_le b 1 5 (by decide) (by decide) (by decide)
      (by decide) (by decide) (by decide) (by decide)
  · exact absurd h3 (by assumption)
  · exact transposeTieBreak_occ_le b (0 ||| 2) 6 (by decide) (by decide) (by decide)
      (by decide) (by decide) (by decide) (by decide)
  · exact absurd h3 (by assumption)
  · exact transposeTieBreak_occ_le b 0 4 (by decide) (by decide) (by decide)
      (by decide) (by decide) (by decide) (by decide)
/-- Counterexample to C3 as stated: a castle-free, pawnless board with
kings on d1 and a8 receives transform 1, which strictly increases both
the kings mask and the combined occupancy mask, so the chosen transform
does not minimize each transformed mask against its untransformed
value. -/
theorem chooseTransform_minimality_counterexample :
    kingsD1A8Board.castlings.no_legal_castle = true ∧
    kingsD1A8Board.pawns = 0 ∧
    ChooseTransform kingsD1A8Board = 1 ∧
    ¬ applyTransform (ChooseTransform kingsD1A8Board) kingsD1A8Board.kings ≤
        kingsD1A8Board.kings ∧
    ¬ applyTransform (ChooseTransform kingsD1A8Board)
          (kingsD1A8Board.ours ||| kingsD1A8Board.theirs) ≤
        (kingsD1A8Board.ours ||| kingsD1A8Board.theirs) := by
  decide

/-- Witness for C3 amended: the kings-on-h1/a8 board lies in the
tie-break case and satisfies the occupancy minimality. -/
theorem chooseTransform_diag_occupancy_minimal_witness :
    kingNormalized kingsH1A8Board &&& 0x10204080 ≠ 0 ∧
    applyTransform (ChooseTransform kingsH1A8Board)
        (kingsH1A8Board.ours ||| kingsH1A8Board.theirs) ≤
      applyTransform (ChooseTransform kingsH1A8Board ^^^ 4)
        (kingsH1A8Board.ours ||| kingsH1A8Board.theirs) :=
  ⟨by decide, chooseTransform_diag_occupancy_minimal kingsH1A8Board
    (by decide) (by decide) (by decide) (by decide)⟩

end Lczero
